import Mathlib

/-!
Verification of the markdown-editor rendering core (`src/main.rs`).

The embedding models:
* `highlight_markdown` (lines 60-131): the event-stream style renderer.
  Mutable locals `color`, `font_size`, `italics`, `bold`, `list_level`,
  `in_item` become the fields of `StyleState`; `ui.label`/`ui.end_row`
  calls become `RenderInstruction`s collected in a list.
* `MarkdownEditor::new` / `load_content` (lines 32-57): startup loading,
  with the filesystem outcome made an explicit parameter.
* the line-number gutter (lines 145-151).

Numeric modelling: `font_size` and the indent are `f32` in the source but
only ever hold small integers produced by exact arithmetic
(`24.0 - level*2.0`, `(list_level - 1) * 20.0`), so they are modelled as
`Int`. `list_level` is an `i32` that the source lets go negative; it is
modelled as `Int`.
-/

namespace RsMdEditor

/-- The two colours the renderer uses: `egui::Color32::WHITE` (the neutral
foreground) and `egui::Color32::LIGHT_BLUE` (the heading accent). -/
inductive Color32
  | white
  | lightBlue
deriving DecidableEq, Repr

/-- `pulldown_cmark::HeadingLevel` (the first component of `Tag::Heading`):
six heading levels. -/
inductive HeadingLevel
  | h1 | h2 | h3 | h4 | h5 | h6
deriving DecidableEq, Repr

/-- The `level as u8` cast of the source (line 72): `H1` is `1`, ..., `H6`
is `6`. -/
def HeadingLevel.u8 : HeadingLevel → Int
  | .h1 => 1
  | .h2 => 2
  | .h3 => 3
  | .h4 => 4
  | .h5 => 5
  | .h6 => 6

/-- `pulldown_cmark::Tag`, restricted to the constructors the renderer's
match distinguishes, plus `emphasis`/`strong` (named because the claims
name them) and `otherTag` standing for every remaining tag
(blockquote, code block, link, image, ...), all of which the source
treats identically: unhandled on `Start`, style reset on `End`. -/
inductive Tag
  | heading (level : HeadingLevel)
  | paragraph
  | list
  | item
  | emphasis
  | strong
  | otherTag
deriving DecidableEq, Repr

/-- `pulldown_cmark::Event`. `start`/`end_`/`text`/`softBreak`/`hardBreak`
are the events the source handles; `code`, `html`, `rule`,
`footnoteReference` and `taskListMarker` are the leaf events that fall
into the source's `_ => {}` arm (line 128). -/
inductive Event
  | start (t : Tag)
  | end_ (t : Tag)
  | text (content : String)
  | softBreak
  | hardBreak
  | code (content : String)
  | html (content : String)
  | rule
  | footnoteReference (label : String)
  | taskListMarker (checked : Bool)
deriving DecidableEq, Repr

/-- One unit of output: a styled text run (a `ui.label` call, with the
bullet/indent wrapper of lines 105-113 recorded in `indentLevel` and
`bulleted`) or a line break (a `ui.end_row` call). -/
inductive RenderInstruction
  | textRun (content : String) (color : Color32) (fontSize : Int)
      (italic : Bool) (bold : Bool) (indentLevel : Int) (bulleted : Bool)
  | lineBreak
deriving DecidableEq, Repr

/-- The renderer's mutable locals (lines 62-67), bundled. -/
structure StyleState where
  color : Color32
  font_size : Int
  italics : Bool
  bold : Bool
  list_level : Int
  in_item : Bool
deriving DecidableEq, Repr

/-- The initial values of the renderer's locals (lines 62-67). -/
def initialState : StyleState :=
  { color := .white, font_size := 14, italics := false, bold := false,
    list_level := 0, in_item := false }

/-- The body of the `for event in parser` loop (lines 69-130): one event's
effect on the style state together with the instructions it emits.
The match arms appear in source order; the final catch-all is the
source's `_ => {}`. -/
def step (s : StyleState) : Event → StyleState × List RenderInstruction
  | .start (.heading level) =>
      ({ s with font_size := 24 - 2 * level.u8,
                color := .lightBlue,
                in_item := false },
        [.lineBreak])
  | .start .paragraph =>
      (if !s.in_item then { s with font_size := 14, color := .white } else s,
        [])
  | .start .list =>
      ({ s with list_level := s.list_level + 1 }, [])
  | .end_ .list =>
      ({ s with list_level := s.list_level - 1, in_item := false }, [])
  | .start .item =>
      ({ s with in_item := true }, [])
  | .text content =>
      (s, [.textRun content s.color s.font_size s.italics s.bold
            (if s.in_item then (s.list_level - 1) * 20 else 0)
            s.in_item])
  | .end_ .item =>
      ({ s with in_item := false }, [])
  | .softBreak => (s, [.lineBreak])
  | .hardBreak => (s, [.lineBreak])
  | .end_ _ =>
      ({ s with color := .white, font_size := 14,
                italics := false, bold := false }, [])
  | _ => (s, [])

/-- Folding `step` over the event sequence: final state and concatenated
output of the loop. -/
def processEvents (s : StyleState) : List Event → StyleState × List RenderInstruction
  | [] => (s, [])
  | e :: es =>
      let r := step s e
      let r2 := processEvents r.1 es
      (r2.1, r.2 ++ r2.2)

/-- `highlight_markdown` (lines 60-131): a full render pass over an event
sequence, starting from the fresh locals of lines 62-67. -/
def highlight_markdown (events : List Event) : List RenderInstruction :=
  (processEvents initialState events).2

theorem processEvents_cons (s : StyleState) (e : Event) (es : List Event) :
    processEvents s (e :: es) =
      ((processEvents (step s e).1 es).1,
        (step s e).2 ++ (processEvents (step s e).1 es).2) := rfl

/-- Number of `Start(List)` events in a sequence. -/
def countStartList : List Event → Nat
  | [] => 0
  | .start .list :: es => countStartList es + 1
  | _ :: es => countStartList es

/-- Number of `End(List)` events in a sequence. -/
def countEndList : List Event → Nat
  | [] => 0
  | .end_ .list :: es => countEndList es + 1
  | _ :: es => countEndList es

/-- Number of `Start(Heading _)` events in a sequence. -/
def countHeadingStarts : List Event → Nat
  | [] => 0
  | .start (.heading _) :: es => countHeadingStarts es + 1
  | _ :: es => countHeadingStarts es

/-- Number of `SoftBreak` events in a sequence. -/
def countSoftBreaks : List Event → Nat
  | [] => 0
  | .softBreak :: es => countSoftBreaks es + 1
  | _ :: es => countSoftBreaks es

/-- Number of `HardBreak` events in a sequence. -/
def countHardBreaks : List Event → Nat
  | [] => 0
  | .hardBreak :: es => countHardBreaks es + 1
  | _ :: es => countHardBreaks es

/-- Number of `LineBreak` instructions in an output sequence. -/
def countLineBreaks : List RenderInstruction → Nat
  | [] => 0
  | .lineBreak :: r => countLineBreaks r + 1
  | .textRun _ _ _ _ _ _ _ :: r => countLineBreaks r

/-- List start/end markers are balanced: no prefix closes more lists than
it has opened, and over the whole sequence the counts agree. -/
def listBalanced (es : List Event) : Prop :=
  (∀ n, n ≤ es.length → countEndList (es.take n) ≤ countStartList (es.take n)) ∧
  countStartList es = countEndList es

/-- The editor state record (lines 9-15): `scroll_offset` is an `f32` that
is only ever stored and copied, modelled as `Int`; `file_path` is the
path as a string. -/
structure MarkdownEditor where
  text : String
  file_path : String
  scroll_offset : Int
  show_preview : Bool
deriving DecidableEq, Repr

/-- `MarkdownEditor::default` (lines 17-28). -/
def MarkdownEditor.default : MarkdownEditor :=
  { text := "# Welcome to Markdown Editor\n\nStart typing your markdown here!",
    file_path := "<desktop>/markdown_editor_content.json",
    scroll_offset := 0,
    show_preview := true }

/-- The outcome of opening and deserializing the state file, made explicit:
`none` = `File::open` failed (file absent); `some none` = the file opened
but `serde_json::from_reader` failed (content unreadable); `some (some r)`
= the file parsed to the record `r`. -/
def FileOutcome : Type := Option (Option MarkdownEditor)

/-- `MarkdownEditor::load_content` (lines 50-57): on a successful open and
parse the whole record is replaced; otherwise `self` is left as is. -/
def MarkdownEditor.load_content (self : MarkdownEditor) :
    FileOutcome → MarkdownEditor
  | some (some content) => content
  | some none => self
  | none => self

/-- `MarkdownEditor::new` (lines 32-37): start from the default record,
load from disk, then unconditionally set `show_preview = true`. -/
def MarkdownEditor.new (file : FileOutcome) : MarkdownEditor :=
  let editor := MarkdownEditor.default.load_content file
  { editor with show_preview := true }

/-- The value of `self.text.lines().count()` (line 145). Rust's
`str::lines` splits at each newline character, with the line ending of
the final line optional (a trailing newline does not create an extra
empty line; a carriage return before a newline is stripped from the line
but does not change the count). Hence: the empty string has `0` lines,
and otherwise the count is the number of newline characters, plus one
when the text does not end in a newline. -/
def rustLineCount (s : String) : Nat :=
  if s.data = [] then 0
  else s.data.count '\n' + (if s.data.getLast? = some '\n' then 0 else 1)

/-- `self.text.lines().count().max(1)` (line 145). -/
def line_count (text : String) : Nat := max (rustLineCount text) 1

/-- The gutter labels (lines 149-151): one label per `i in 1..=line_count`. -/
def lineNumberLabels (text : String) : List Nat :=
  (List.range (line_count text)).map (fun i => i + 1)

/-- The events the renderer's match handles with a dedicated arm:
`Start` of heading/paragraph/list/item, `End` of any tag, `Text`,
`SoftBreak` and `HardBreak`. Everything else falls into `_ => {}`. -/
def handledEvent : Event → Bool
  | .start (.heading _) => true
  | .start .paragraph => true
  | .start .list => true
  | .start .item => true
  | .end_ _ => true
  | .text _ => true
  | .softBreak => true
  | .hardBreak => true
  | _ => false

/-! ### Helper lemmas -/

theorem countLineBreaks_append (a b : List RenderInstruction) :
    countLineBreaks (a ++ b) = countLineBreaks a + countLineBreaks b := by
  induction a with
  | nil => simp [countLineBreaks]
  | cons i a ih => cases i <;> simp [countLineBreaks, ih] <;> omega

theorem list_level_run (es : List Event) : ∀ s : StyleState,
    ((processEvents s es).1.list_level : Int) + (countEndList es : Int) =
      s.list_level + countStartList es := by
  induction es with
  | nil => intro s; simp [processEvents, countStartList, countEndList]
  | cons e es ih =>
    intro s
    have h := ih (step s e).1
    rw [processEvents_cons]
    cases e with
    | start t =>
        cases t <;>
          simp [step, countStartList, countEndList, apply_ite] at h ⊢ <;> omega
    | end_ t =>
        cases t <;>
          simp [step, countStartList, countEndList] at h ⊢ <;> omega
    | text c => simpa [step, countStartList, countEndList] using h
    | softBreak => simpa [step, countStartList, countEndList] using h
    | hardBreak => simpa [step, countStartList, countEndList] using h
    | code c => simpa [step, countStartList, countEndList] using h
    | html c => simpa [step, countStartList, countEndList] using h
    | rule => simpa [step, countStartList, countEndList] using h
    | footnoteReference l => simpa [step, countStartList, countEndList] using h
    | taskListMarker b => simpa [step, countStartList, countEndList] using h

theorem lineBreaks_run (es : List Event) : ∀ s : StyleState,
    countLineBreaks (processEvents s es).2 =
      countHeadingStarts es + countSoftBreaks es + countHardBreaks es := by
  induction es with
  | nil =>
    intro s
    simp [processEvents, countHeadingStarts, countSoftBreaks, countHardBreaks,
      countLineBreaks]
  | cons e es ih =>
    intro s
    have h := ih (step s e).1
    rw [processEvents_cons]
    cases e with
    | start t =>
        cases t <;>
          simp [step, countLineBreaks_append, countLineBreaks, countHeadingStarts,
            countSoftBreaks, countHardBreaks, apply_ite] at h ⊢ <;> omega
    | end_ t =>
        cases t <;>
          simp [step, countLineBreaks_append, countLineBreaks, countHeadingStarts,
            countSoftBreaks, countHardBreaks] at h ⊢ <;> omega
    | text c =>
        simp [step, countLineBreaks_append, countLineBreaks, countHeadingStarts,
          countSoftBreaks, countHardBreaks] at h ⊢ <;> omega
    | softBreak =>
        simp [step, countLineBreaks_append, countLineBreaks, countHeadingStarts,
          countSoftBreaks, countHardBreaks] at h ⊢ <;> omega
    | hardBreak =>
        simp [step, countLineBreaks_append, countLineBreaks, countHeadingStarts,
          countSoftBreaks, countHardBreaks] at h ⊢ <;> omega
    | code c =>
        simp [step, countLineBreaks_append, countLineBreaks, countHeadingStarts,
          countSoftBreaks, countHardBreaks] at h ⊢ <;> omega
    | html c =>
        simp [step, countLineBreaks_append, countLineBreaks, countHeadingStarts,
          countSoftBreaks, countHardBreaks] at h ⊢ <;> omega
    | rule =>
        simp [step, countLineBreaks_append, countLineBreaks, countHeadingStarts,
          countSoftBreaks, countHardBreaks] at h ⊢ <;> omega
    | footnoteReference l =>
        simp [step, countLineBreaks_append, countLineBreaks, countHeadingStarts,
          countSoftBreaks, countHardBreaks] at h ⊢ <;> omega
    | taskListMarker b =>
        simp [step, countLineBreaks_append, countLineBreaks, countHeadingStarts,
          countSoftBreaks, countHardBreaks] at h ⊢ <;> omega

/-! ### Claim theorems -/

/-- Claim C1: for every `Start(Heading level)` event with level in 1..6
(the six values of `HeadingLevel`, whose `u8` cast lies in 1..6), the
renderer sets `font_size` to `24 - 2*level` (level 1 gives 22, level 6
gives 12), sets the colour to the accent colour `LIGHT_BLUE`, sets
`in_item` to `false`, and the event's whole output is exactly one
`LineBreak`, emitted before any subsequent `TextRun` of the heading. -/
theorem heading_start_effect (s : StyleState) (lvl : HeadingLevel) :
    step s (.start (.heading lvl)) =
      ({ s with font_size := 24 - 2 * lvl.u8,
                color := .lightBlue, in_item := false },
        [.lineBreak]) ∧
    (step initialState (.start (.heading .h1))).1.font_size = 22 ∧
    (step initialState (.start (.heading .h6))).1.font_size = 12 ∧
    1 ≤ lvl.u8 ∧ lvl.u8 ≤ 6 := by
  refine ⟨rfl, by decide, by decide, ?_, ?_⟩ <;> cases lvl <;> decide

/-- Claim C2: a `Text` event seen while `in_item` is true and the list
nesting depth is `d` emits a single `TextRun` with `indentLevel = (d-1)*20`
and `bulleted = true`; a `Text` event seen with `in_item` false emits a
single `TextRun` with `indentLevel = 0` and `bulleted = false`. -/
theorem text_event_output (s : StyleState) (c : String) (d : Int) :
    (s.in_item = true → s.list_level = d →
      (step s (.text c)).2 =
        [.textRun c s.color s.font_size s.italics s.bold ((d - 1) * 20) true]) ∧
    (s.in_item = false →
      (step s (.text c)).2 =
        [.textRun c s.color s.font_size s.italics s.bold 0 false]) := by
  constructor
  · intro h hd
    subst hd
    simp [step, h]
  · intro h
    simp [step, h]

/-- Witness for C2 at a concrete state: inside an item of a depth-2 list the
run is indented `(2-1)*20 = 20` and bulleted. -/
theorem text_event_output_witness :
    (step { color := .white, font_size := 14, italics := false, bold := false,
            list_level := 2, in_item := true } (.text "a")).2 =
      [.textRun "a" .white 14 false false ((2 - 1) * 20) true] :=
  (text_event_output
    { color := .white, font_size := 14, italics := false, bold := false,
      list_level := 2, in_item := true } "a" 2).1 rfl rfl

/-- Claim C3: an `End` event whose tag is neither `List` nor `Item`
(heading, paragraph, emphasis, strong, or any other tag) resets the style
to `color = WHITE`, `font_size = 14`, `italics = false`, `bold = false`,
whatever the style was before, emitting nothing and leaving `list_level`
and `in_item` untouched. -/
theorem end_other_resets (s : StyleState) (t : Tag)
    (h1 : t ≠ Tag.list) (h2 : t ≠ Tag.item) :
    step s (.end_ t) =
      ({ s with color := .white, font_size := 14,
                italics := false, bold := false }, []) := by
  cases t with
  | heading l => rfl
  | paragraph => rfl
  | list => exact absurd rfl h1
  | item => exact absurd rfl h2
  | emphasis => rfl
  | strong => rfl
  | otherTag => rfl

/-- Witness for C3 at a concrete styled state and `End(Paragraph)`. -/
theorem end_other_resets_witness :
    step { color := .lightBlue, font_size := 22, italics := true, bold := true,
           list_level := 3, in_item := true } (.end_ .paragraph) =
      ({ color := .white, font_size := 14, italics := false, bold := false,
         list_level := 3, in_item := true }, []) :=
  end_other_resets
    { color := .lightBlue, font_size := 22, italics := true, bold := true,
      list_level := 3, in_item := true } .paragraph
    (by decide) (by decide)

/-- Claim C4 (code bug in the source): the renderer's match has no arm for
`Start(Emphasis)` or `Start(Strong)` — both fall into the `_ => {}`
catch-all of line 128 — so the `italics` and `bold` flags are never set to
true and text inside emphasis or strong emphasis is rendered with
`italic = false` / `bold = false`. The `if italics` / `if bold` branches of
lines 98-103 are unreachable with a true flag, showing the flags were meant
to be toggled by those start events as the claim states. -/
theorem emphasized_text_not_italic :
    highlight_markdown [.start .emphasis, .text "x", .end_ .emphasis] =
      [.textRun "x" .white 14 false false 0 false] ∧
    highlight_markdown [.start .strong, .text "y", .end_ .strong] =
      [.textRun "y" .white 14 false false 0 false] ∧
    step initialState (.start .emphasis) = (initialState, []) ∧
    step initialState (.start .strong) = (initialState, []) :=
  ⟨rfl, rfl, rfl, rfl⟩

/-- Claim C5: over any event sequence whose list start/end markers are
balanced, `list_level` starts at `0`, each `Start(List)` adds one, each
`End(List)` subtracts one, and the level is never negative after any
prefix of the sequence. -/
theorem list_level_nonneg (es : List Event) (h : listBalanced es) :
    initialState.list_level = 0 ∧
    (∀ s : StyleState, (step s (.start .list)).1.list_level = s.list_level + 1) ∧
    (∀ s : StyleState, (step s (.end_ .list)).1.list_level = s.list_level - 1) ∧
    (∀ n : Nat, 0 ≤ (processEvents initialState (es.take n)).1.list_level) := by
  refine ⟨rfl, fun s => rfl, fun s => rfl, fun n => ?_⟩
  have hrun := list_level_run (es.take n) initialState
  have h0 : initialState.list_level = 0 := rfl
  rw [h0] at hrun
  rcases le_or_lt n es.length with hn | hn
  · have hb := h.1 n hn
    omega
  · rw [List.take_of_length_le (le_of_lt hn)] at hrun ⊢
    have hb := h.2
    omega

/-- Witness for C5: a concrete balanced sequence with a nested list,
evaluated after three events. -/
theorem list_level_nonneg_witness :
    0 ≤ (processEvents initialState
      ([.start .list, .start .item, .text "a", .start .list, .start .item,
        .text "b", .end_ .item, .end_ .list, .end_ .item, .end_ .list].take 5)
      ).1.list_level :=
  (list_level_nonneg
    [.start .list, .start .item, .text "a", .start .list, .start .item,
     .text "b", .end_ .item, .end_ .list, .end_ .item, .end_ .list]
    (by refine ⟨?_, ?_⟩ <;> decide)).2.2.2 5

/-- Claim C6: over any event sequence with balanced list start/end markers,
one render pass emits exactly as many `LineBreak` instructions as there are
`Start(Heading)` events plus `SoftBreak` events plus `HardBreak` events.
(The balancedness hypothesis is the claim's; the count identity holds for
the renderer regardless.) -/
theorem lineBreak_count (es : List Event) (_h : listBalanced es) :
    countLineBreaks (highlight_markdown es) =
      countHeadingStarts es + countSoftBreaks es + countHardBreaks es :=
  lineBreaks_run es initialState

/-- Witness for C6: a concrete balanced sequence with one heading, one soft
break and one hard break; both sides evaluate to 3. -/
theorem lineBreak_count_witness :
    countLineBreaks (highlight_markdown
      [.start (.heading .h1), .text "T", .end_ (.heading .h1), .softBreak,
       .start .list, .start .item, .text "a", .end_ .item, .end_ .list,
       .hardBreak]) =
      countHeadingStarts
        [.start (.heading .h1), .text "T", .end_ (.heading .h1), .softBreak,
         .start .list, .start .item, .text "a", .end_ .item, .end_ .list,
         .hardBreak] +
      countSoftBreaks
        [.start (.heading .h1), .text "T", .end_ (.heading .h1), .softBreak,
         .start .list, .start .item, .text "a", .end_ .item, .end_ .list,
         .hardBreak] +
      countHardBreaks
        [.start (.heading .h1), .text "T", .end_ (.heading .h1), .softBreak,
         .start .list, .start .item, .text "a", .end_ .item, .end_ .list,
         .hardBreak] :=
  lineBreak_count
    [.start (.heading .h1), .text "T", .end_ (.heading .h1), .softBreak,
     .start .list, .start .item, .text "a", .end_ .item, .end_ .list,
     .hardBreak]
    (by refine ⟨?_, ?_⟩ <;> decide)

/-- Claim C7: the renderer is deterministic and carries no cross-pass
state: two render passes over the same event sequence, each starting from
the fresh initial style state, produce identical instruction sequences
(and identical final states). -/
theorem renderer_idempotent (es : List Event) :
    highlight_markdown es = highlight_markdown es ∧
    processEvents initialState es = processEvents initialState es :=
  ⟨rfl, rfl⟩

/-- A concrete persisted record whose `show_preview` field is `false`,
refuting claim C8 as stated. -/
def persistedSample : MarkdownEditor :=
  { text := "draft", file_path := "<desktop>/markdown_editor_content.json",
    scroll_offset := 5, show_preview := false }

/-- Counterexample to claim C8 as stated: when the state file exists and
parses to a record with `show_preview = false`, the editor built at startup
has `show_preview = true` (line 35 forces it after loading), so not every
field equals the persisted value. -/
theorem startup_show_preview_counterexample :
    (MarkdownEditor.new (some (some persistedSample))).show_preview ≠
      persistedSample.show_preview ∧
    (MarkdownEditor.new (some (some persistedSample))).show_preview = true ∧
    persistedSample.show_preview = false :=
  ⟨by decide, rfl, rfl⟩

/-- Claim C8 (amended): at startup the persisted record is deserialized
once; when the state file exists and parses, the `text`, `file_path` and
`scroll_offset` fields equal the persisted values but `show_preview` is
unconditionally set to `true`; when the file is absent or its content
unreadable, every field silently keeps its default value (the default
`show_preview` being `true`) and no error is surfaced. -/
theorem startup_load_amended (r : MarkdownEditor) :
    MarkdownEditor.new (some (some r)) = { r with show_preview := true } ∧
    MarkdownEditor.new none = MarkdownEditor.default ∧
    MarkdownEditor.new (some none) = MarkdownEditor.default :=
  ⟨rfl, rfl, rfl⟩

/-- Claim C9: the line-number gutter renders exactly `max(1, n)` labels,
where `n` is the number of newline-delimited segments of the text in the
sense of Rust's `str::lines`; in particular the empty text yields exactly
one label. -/
theorem gutter_label_count (text : String) :
    (lineNumberLabels text).length = max 1 (rustLineCount text) ∧
    (lineNumberLabels "").length = 1 := by
  constructor
  · simp [lineNumberLabels, line_count]
    omega
  · decide

/-- Claim C10: every event outside the handled set (`Start` of
heading/paragraph/list/item, `End` of any tag, `Text`, `SoftBreak`,
`HardBreak`) — inline code, html, rules, footnote references, task-list
markers, and `Start` of any other tag — emits no instruction and leaves
the whole six-field style state unchanged; in particular inline-code
content is silently dropped. -/
theorem unhandled_event_noop (s : StyleState) (e : Event)
    (h : handledEvent e = false) :
    step s e = (s, []) := by
  cases e with
  | start t =>
      cases t with
      | heading l => simp [handledEvent] at h
      | paragraph => simp [handledEvent] at h
      | list => simp [handledEvent] at h
      | item => simp [handledEvent] at h
      | emphasis => rfl
      | strong => rfl
      | otherTag => rfl
  | end_ t => simp [handledEvent] at h
  | text c => simp [handledEvent] at h
  | softBreak => simp [handledEvent] at h
  | hardBreak => simp [handledEvent] at h
  | code c => rfl
  | html c => rfl
  | rule => rfl
  | footnoteReference l => rfl
  | taskListMarker b => rfl

/-- Witness for C10: an inline-code event is dropped without touching the
state. -/
theorem unhandled_event_noop_witness :
    step initialState (.code "let x = 1") = (initialState, []) :=
  unhandled_event_noop initialState (.code "let x = 1") rfl

end RsMdEditor
